import Mathlib

/-!
Verification of the RPLidar mapping pipeline (aula9/RPLidarProjects).

The Python sources are shallowly embedded here:
* the capacity-bounded rolling point store (`deque(maxlen=...)` in
  `FullLidarMappingGUI.py`, explicit list truncation in `LidarViewer.py`);
* the polar-to-Cartesian converter with its acceptance filter
  (`FullLidarMappingGUI.scan_worker`);
* the room-metrics computation (`RoomMapperLidar.measure_room`);
* the queue-draining scheduler (`FullLidarMappingGUI.process_queue` /
  `stop_scan`) with its decimated redraw;
* the acquisition worker with the consecutive-error threshold
  (`LidarWorker.run` in the Qt variant inside `LidarViewer.py`);
* the JSON/CSV interchange codec (`export_data` / `load_data`).

Floating-point coordinates are modelled by rationals; the trigonometric
functions `np.cos (np.radians _)` and `np.sin (np.radians _)` are passed in
as abstract parameters `cosD sinD : Rat -> Rat`, since the claims under
verification never depend on their values.
-/

/-- Python list slicing `l[-n:]` (and the retention effect of
`deque(maxlen=n)`): the last `min n (length l)` elements of `l`. -/
def takeLast (n : Nat) (l : List α) : List α :=
  l.drop (l.length - n)

/-- One `append` on a `collections.deque` with `maxlen=C`
(`FullLidarMappingGUI.py` line 55: `deque(maxlen=150000)`): the new element
is appended and, if the deque would exceed its maxlen, the oldest element is
discarded from the left. -/
def dequeAppend (C : Nat) (store : List α) (x : α) : List α :=
  if C < (store ++ [x]).length then takeLast C (store ++ [x]) else store ++ [x]

/-- Batch insertion as in `FixedLidarViewer.scan_worker`
(`LidarViewer.py` lines 119-123): `all_points.extend(new_points)` followed by
`if len(all_points) > 2000: all_points = all_points[-2000:]`. -/
def trimExtend (C : Nat) (store batch : List α) : List α :=
  if C < (store ++ batch).length then takeLast C (store ++ batch) else store ++ batch

theorem takeLast_of_length_le {n : Nat} {l : List α} (h : l.length ≤ n) :
    takeLast n l = l := by
  unfold takeLast
  have h0 : l.length - n = 0 := by omega
  simp [h0]

theorem length_takeLast (n : Nat) (l : List α) :
    (takeLast n l).length = min n l.length := by
  unfold takeLast
  rw [List.length_drop]
  omega

theorem dequeAppend_eq_takeLast (C : Nat) (store : List α) (x : α) :
    dequeAppend C store x = takeLast C (store ++ [x]) := by
  unfold dequeAppend
  split
  · rfl
  · next h =>
    rw [takeLast_of_length_le (by omega)]

theorem trimExtend_eq_takeLast (C : Nat) (store batch : List α) :
    trimExtend C store batch = takeLast C (store ++ batch) := by
  unfold trimExtend
  split
  · rfl
  · next h =>
    rw [takeLast_of_length_le (by omega)]

theorem takeLast_takeLast_append (C : Nat) (a b : List α) :
    takeLast C (takeLast C a ++ b) = takeLast C (a ++ b) := by
  rcases le_or_lt a.length C with h | h
  · rw [takeLast_of_length_le h]
  · unfold takeLast
    rw [List.drop_append_eq_append_drop, List.drop_append_eq_append_drop,
      List.drop_drop]
    simp only [List.length_append, List.length_drop]
    congr 2 <;> omega

theorem foldl_dequeAppend_eq (C : Nat) (b : List α) :
    ∀ s : List α, s.length ≤ C →
      List.foldl (dequeAppend C) s b = takeLast C (s ++ b) := by
  induction b with
  | nil =>
    intro s h
    simp [takeLast_of_length_le h]
  | cons x xs ih =>
    intro s h
    rw [List.foldl_cons, dequeAppend_eq_takeLast]
    rw [ih (takeLast C (s ++ [x])) (by rw [length_takeLast]; omega)]
    rw [takeLast_takeLast_append]
    simp

theorem foldl_trimExtend_eq (C : Nat) (bs : List (List α)) :
    ∀ s : List α, s.length ≤ C →
      List.foldl (trimExtend C) s bs = takeLast C (s ++ bs.flatten) := by
  induction bs with
  | nil =>
    intro s h
    simp [takeLast_of_length_le h]
  | cons b bs ih =>
    intro s h
    rw [List.foldl_cons, trimExtend_eq_takeLast]
    rw [ih (takeLast C (s ++ b)) (by rw [length_takeLast]; omega)]
    rw [takeLast_takeLast_append]
    simp

/-- A Cartesian point as stored by `FullLidarMappingGUI.scan_worker`:
the quadruple `[x, y, quality, distance]`. -/
structure Point where
  x : Rat
  y : Rat
  quality : Int
  distance : Rat
deriving DecidableEq, Repr

/-- Claim C1: for every sequence of point insertions into a point store of
capacity `C`, after each insertion the store's length is at most `C` (it is
exactly `min C total_inserted`) and the store contains exactly the
most-recently-inserted `min C total_inserted` points in insertion order
(oldest evicted first, no reordering).  Both store variants are covered:
the `deque(maxlen=C)` per-point insertion of `FullLidarMappingGUI.py` and
the extend-then-truncate batch insertion of `LidarViewer.py`.  Since `ps`
(resp. `bs`) ranges over all insertion sequences, the statement holds after
every insertion of any longer sequence as well. -/
theorem point_store_capacity_invariant (C : Nat) (ps : List Point)
    (bs : List (List Point)) :
    (List.foldl (dequeAppend C) ([] : List Point) ps).length = min C ps.length ∧
    List.foldl (dequeAppend C) ([] : List Point) ps = takeLast C ps ∧
    (List.foldl (trimExtend C) ([] : List Point) bs).length = min C bs.flatten.length ∧
    List.foldl (trimExtend C) ([] : List Point) bs = takeLast C bs.flatten := by
  have h1 := foldl_dequeAppend_eq C ps ([] : List Point) (by simp)
  have h2 := foldl_trimExtend_eq C bs ([] : List Point) (by simp)
  simp only [List.nil_append] at h1 h2
  refine ⟨?_, h1, ?_, h2⟩
  · rw [h1, length_takeLast]
  · rw [h2, length_takeLast]

/-- One raw measurement from the sensor driver: a
`(quality, angle, distance)` triple as yielded by `lidar.iter_scans()`. -/
structure Measurement where
  quality : Int
  angle : Rat
  distance : Rat
deriving DecidableEq, Repr

/-- The filter configuration of `FullLidarMappingGUI`: the mutable
`self.filter_distance` slider value (maximum distance in mm). -/
structure FilterConfig where
  filter_distance : Rat
deriving DecidableEq, Repr

/-- The polar-to-Cartesian converter of `FullLidarMappingGUI.scan_worker`
(lines 553-559): a measurement is accepted when
`0 < distance <= self.filter_distance and quality > 0`, in which case the
point `[distance*cos(radians(angle)), distance*sin(radians(angle)), quality,
distance]` is produced; otherwise it is rejected.  `cosD` and `sinD` stand
for `np.cos (np.radians _)` and `np.sin (np.radians _)`. -/
def convert (cosD sinD : Rat → Rat) (cfg : FilterConfig) (m : Measurement) :
    Option Point :=
  if 0 < m.distance ∧ m.distance ≤ cfg.filter_distance ∧ 0 < m.quality then
    some ⟨m.distance * cosD m.angle, m.distance * sinD m.angle,
          m.quality, m.distance⟩
  else
    none

/-- Claim C4: the converter rejects (returns `none`) exactly when
`distance <= 0`, or `quality <= 0`, or `distance > filter_distance`;
every other measurement is accepted (returns `some` point). -/
theorem convert_reject_iff (cosD sinD : Rat → Rat) (cfg : FilterConfig)
    (m : Measurement) :
    (convert cosD sinD cfg m = none ↔
      m.distance ≤ 0 ∨ m.quality ≤ 0 ∨ cfg.filter_distance < m.distance) ∧
    ((∃ p, convert cosD sinD cfg m = some p) ↔
      ¬(m.distance ≤ 0 ∨ m.quality ≤ 0 ∨ cfg.filter_distance < m.distance)) := by
  have key : (m.distance ≤ 0 ∨ m.quality ≤ 0 ∨ cfg.filter_distance < m.distance) ↔
      ¬(0 < m.distance ∧ m.distance ≤ cfg.filter_distance ∧ 0 < m.quality) := by
    constructor
    · rintro (h | h | h) ⟨h1, h2, h3⟩
      · exact absurd h1 (not_lt.2 h)
      · exact absurd h3 (not_lt.2 h)
      · exact absurd h2 (not_le.2 h)
    · intro h
      rcases le_or_lt m.distance 0 with hd | hd
      · exact Or.inl hd
      rcases le_or_lt m.distance cfg.filter_distance with hf | hf
      · rcases le_or_lt m.quality 0 with hq | hq
        · exact Or.inr (Or.inl hq)
        · exact absurd ⟨hd, hf, hq⟩ h
      · exact Or.inr (Or.inr hf)
  unfold convert
  by_cases hA : 0 < m.distance ∧ m.distance ≤ cfg.filter_distance ∧ 0 < m.quality
  · rw [if_pos hA]
    constructor
    · simp only [reduceCtorEq, false_iff]
      rw [key]
      exact not_not_intro hA
    · constructor
      · intro _
        rw [key]
        exact not_not_intro hA
      · intro _
        exact ⟨_, rfl⟩
  · rw [if_neg hA]
    constructor
    · exact ⟨fun _ => key.mpr hA, fun _ => rfl⟩
    · constructor
      · rintro ⟨p, hp⟩
        exact absurd hp (by simp)
      · intro hR
        exact absurd (key.mpr hA) hR

/-- The record returned by `RoomMapperLidar.measure_room`
(`RoomMapperLidar.py` lines 153-161). -/
structure RoomData where
  width : Rat
  height : Rat
  area : Rat
  perimeter : Rat
  center : Rat × Rat
  bounds : Rat × Rat × Rat × Rat
  point_count : Nat
deriving DecidableEq, Repr

/-- Python `max(x0 :: xs)`, folded with the head as the accumulator. -/
def listMax (x : Rat) (xs : List Rat) : Rat :=
  xs.foldl max x

/-- Python `min(x0 :: xs)`, folded with the head as the accumulator. -/
def listMin (x : Rat) (xs : List Rat) : Rat :=
  xs.foldl min x

/-- Model of `RoomMapperLidar.measure_room` (`RoomMapperLidar.py` lines 138-162):
if `len(all_points) > 100`, computes the axis-aligned bounding box of the
stored `(x, y)` pairs and derives width, height, area (`/ 1000000`, mm² to
m²), perimeter, center and bounds; otherwise returns `None`.  Note that the
source guard is a strict `> 100`, not `>= 100`. -/
def measure_room (all_points : List (Rat × Rat)) : Option RoomData :=
  if 100 < all_points.length then
    match all_points with
    | [] => none
    | p :: ps =>
      let maxX := listMax p.1 (ps.map Prod.fst)
      let minX := listMin p.1 (ps.map Prod.fst)
      let maxY := listMax p.2 (ps.map Prod.snd)
      let minY := listMin p.2 (ps.map Prod.snd)
      let width := maxX - minX
      let height := maxY - minY
      let room_area := width * height / 1000000
      let perimeter := 2 * (width + height)
      let center_x := (maxX + minX) / 2
      let center_y := (maxY + minY) / 2
      some ⟨width, height, room_area, perimeter, (center_x, center_y),
            (minX, minY, maxX, maxY), (p :: ps).length⟩
  else
    none

theorem le_listMax (x : Rat) (xs : List Rat) :
    x ≤ listMax x xs ∧ ∀ y ∈ xs, y ≤ listMax x xs := by
  induction xs generalizing x with
  | nil => simp [listMax]
  | cons y ys ih =>
    have hx : x ≤ listMax (max x y) ys := le_trans (le_max_left x y) (ih (max x y)).1
    have hy : y ≤ listMax (max x y) ys := le_trans (le_max_right x y) (ih (max x y)).1
    refine ⟨hx, ?_⟩
    intro z hz
    rcases List.mem_cons.mp hz with rfl | hz
    · exact hy
    · exact (ih (max x y)).2 z hz

theorem listMin_le (x : Rat) (xs : List Rat) :
    listMin x xs ≤ x ∧ ∀ y ∈ xs, listMin x xs ≤ y := by
  induction xs generalizing x with
  | nil => simp [listMin]
  | cons y ys ih =>
    have hx : listMin (min x y) ys ≤ x := le_trans (ih (min x y)).1 (min_le_left x y)
    have hy : listMin (min x y) ys ≤ y := le_trans (ih (min x y)).1 (min_le_right x y)
    refine ⟨hx, ?_⟩
    intro z hz
    rcases List.mem_cons.mp hz with rfl | hz
    · exact hy
    · exact (ih (min x y)).2 z hz

theorem listMax_mem (x : Rat) (xs : List Rat) :
    listMax x xs ∈ x :: xs := by
  induction xs generalizing x with
  | nil => simp [listMax]
  | cons y ys ih =>
    have h := ih (max x y)
    rcases List.mem_cons.mp h with he | hm
    · rcases max_choice x y with hc | hc
      · rw [listMax, List.foldl_cons, ← listMax] at *
        rw [he, hc]
        exact List.mem_cons_self x (y :: ys)
      · rw [listMax, List.foldl_cons, ← listMax] at *
        rw [he, hc]
        exact List.mem_cons_of_mem x (List.mem_cons_self y ys)
    · rw [listMax, List.foldl_cons, ← listMax]
      exact List.mem_cons_of_mem x (List.mem_cons_of_mem y hm)

theorem listMin_mem (x : Rat) (xs : List Rat) :
    listMin x xs ∈ x :: xs := by
  induction xs generalizing x with
  | nil => simp [listMin]
  | cons y ys ih =>
    have h := ih (min x y)
    rcases List.mem_cons.mp h with he | hm
    · rcases min_choice x y with hc | hc
      · rw [listMin, List.foldl_cons, ← listMin] at *
        rw [he, hc]
        exact List.mem_cons_self x (y :: ys)
      · rw [listMin, List.foldl_cons, ← listMin] at *
        rw [he, hc]
        exact List.mem_cons_of_mem x (List.mem_cons_self y ys)
    · rw [listMin, List.foldl_cons, ← listMin]
      exact List.mem_cons_of_mem x (List.mem_cons_of_mem y hm)

theorem listMax_replicate (n : Nat) (x : Rat) :
    listMax x (List.replicate n x) = x := by
  induction n with
  | zero => simp [listMax]
  | succ k ih =>
    rw [List.replicate_succ]
    simp only [listMax, List.foldl_cons, max_self]
    exact ih

theorem listMin_replicate (n : Nat) (x : Rat) :
    listMin x (List.replicate n x) = x := by
  induction n with
  | zero => simp [listMin]
  | succ k ih =>
    rw [List.replicate_succ]
    simp only [listMin, List.foldl_cons, min_self]
    exact ih

/-- Claim C2, counterexample: on 100 identical points at the origin,
`measure_room` returns `None`, because the source guard is
`len(self.all_points) > 100`, not `>= 100`.  This refutes both halves of the
claim: the result is not `None` exactly when the count is below 100, and on
100 points no metrics record is produced at all. -/
theorem measure_room_at_100_is_none :
    measure_room (List.replicate 100 ((0:Rat), (0:Rat))) = none := by
  decide

/-- Claim C2, amended: `measure_room` returns `None` exactly when the point
count is at most 100 (the source guard is strict `> 100`); in particular on
99 and on 100 points it returns `None`, while on 101 identical points at
the origin it returns metrics with `width = 0`, `height = 0`, `area = 0`. -/
theorem measure_room_threshold :
    (∀ pts : List (Rat × Rat), measure_room pts = none ↔ pts.length ≤ 100) ∧
    measure_room (List.replicate 99 ((0:Rat), (0:Rat))) = none ∧
    measure_room (List.replicate 100 ((0:Rat), (0:Rat))) = none ∧
    (∃ r, measure_room (List.replicate 101 ((0:Rat), (0:Rat))) = some r ∧
      r.width = 0 ∧ r.height = 0 ∧ r.area = 0) := by
  have hiff : ∀ pts : List (Rat × Rat), measure_room pts = none ↔ pts.length ≤ 100 := by
    intro pts
    cases pts with
    | nil => simp [measure_room]
    | cons p ps =>
      by_cases h : 100 < (p :: ps).length
      · unfold measure_room
        rw [if_pos h]
        simp only [List.length_cons] at h ⊢
        simp only [reduceCtorEq, false_iff]
        omega
      · unfold measure_room
        rw [if_neg h]
        simp only [List.length_cons] at h ⊢
        simp only [true_iff]
        omega
  have h101 : List.replicate 101 ((0:Rat), (0:Rat)) =
      ((0:Rat), (0:Rat)) :: List.replicate 100 ((0:Rat), (0:Rat)) := rfl
  refine ⟨hiff, by decide, by decide, ?_⟩
  refine ⟨⟨0, 0, 0, 0, (0, 0), (0, 0, 0, 0), 101⟩, ?_, rfl, rfl, rfl⟩
  rw [h101]
  unfold measure_room
  rw [if_pos (by simp)]
  simp only [List.map_replicate, List.length_cons, List.length_replicate]
  norm_num [listMax_replicate, listMin_replicate]

/-- Claim C3: for every point set above the minimum-sample threshold (source
guard: more than 100 points), the derived metrics equal the axis-aligned
bounding-box values: `r.bounds` consists of the true minima and maxima of
the point coordinates, `width = max_x - min_x`, `height = max_y - min_y`,
`area = width*height/1000000` (square meters), `perimeter =
2*(width+height)`, `centroid = ((max_x+min_x)/2, (max_y+min_y)/2)`. -/
theorem measure_room_bbox (pts : List (Rat × Rat)) (h : 100 < pts.length) :
    ∃ r minX minY maxX maxY, measure_room pts = some r ∧
      r.bounds = (minX, minY, maxX, maxY) ∧
      minX ∈ pts.map Prod.fst ∧ (∀ v ∈ pts.map Prod.fst, minX ≤ v) ∧
      maxX ∈ pts.map Prod.fst ∧ (∀ v ∈ pts.map Prod.fst, v ≤ maxX) ∧
      minY ∈ pts.map Prod.snd ∧ (∀ v ∈ pts.map Prod.snd, minY ≤ v) ∧
      maxY ∈ pts.map Prod.snd ∧ (∀ v ∈ pts.map Prod.snd, v ≤ maxY) ∧
      r.width = maxX - minX ∧ r.height = maxY - minY ∧
      r.area = r.width * r.height / 1000000 ∧
      r.perimeter = 2 * (r.width + r.height) ∧
      r.center = ((maxX + minX) / 2, (maxY + minY) / 2) ∧
      r.point_count = pts.length := by
  match pts, h with
  | p :: ps, h =>
    have hr : measure_room (p :: ps) = some
        { width := listMax p.1 (ps.map Prod.fst) - listMin p.1 (ps.map Prod.fst),
          height := listMax p.2 (ps.map Prod.snd) - listMin p.2 (ps.map Prod.snd),
          area := (listMax p.1 (ps.map Prod.fst) - listMin p.1 (ps.map Prod.fst)) *
            (listMax p.2 (ps.map Prod.snd) - listMin p.2 (ps.map Prod.snd)) / 1000000,
          perimeter := 2 * (listMax p.1 (ps.map Prod.fst) - listMin p.1 (ps.map Prod.fst) +
            (listMax p.2 (ps.map Prod.snd) - listMin p.2 (ps.map Prod.snd))),
          center := ((listMax p.1 (ps.map Prod.fst) + listMin p.1 (ps.map Prod.fst)) / 2,
            (listMax p.2 (ps.map Prod.snd) + listMin p.2 (ps.map Prod.snd)) / 2),
          bounds := (listMin p.1 (ps.map Prod.fst), listMin p.2 (ps.map Prod.snd),
            listMax p.1 (ps.map Prod.fst), listMax p.2 (ps.map Prod.snd)),
          point_count := (p :: ps).length } := by
      unfold measure_room
      rw [if_pos h]
    refine ⟨_, listMin p.1 (ps.map Prod.fst), listMin p.2 (ps.map Prod.snd),
      listMax p.1 (ps.map Prod.fst), listMax p.2 (ps.map Prod.snd),
      hr, rfl, ?_, ?_, ?_, ?_, ?_, ?_, ?_, ?_, rfl, rfl, rfl, rfl, rfl, rfl⟩
    · simpa using listMin_mem p.1 (ps.map Prod.fst)
    · intro v hv
      rw [List.map_cons] at hv
      rcases List.mem_cons.mp hv with rfl | hv
      · exact (listMin_le p.1 (ps.map Prod.fst)).1
      · exact (listMin_le p.1 (ps.map Prod.fst)).2 v hv
    · simpa using listMax_mem p.1 (ps.map Prod.fst)
    · intro v hv
      rw [List.map_cons] at hv
      rcases List.mem_cons.mp hv with rfl | hv
      · exact (le_listMax p.1 (ps.map Prod.fst)).1
      · exact (le_listMax p.1 (ps.map Prod.fst)).2 v hv
    · simpa using listMin_mem p.2 (ps.map Prod.snd)
    · intro v hv
      rw [List.map_cons] at hv
      rcases List.mem_cons.mp hv with rfl | hv
      · exact (listMin_le p.2 (ps.map Prod.snd)).1
      · exact (listMin_le p.2 (ps.map Prod.snd)).2 v hv
    · simpa using listMax_mem p.2 (ps.map Prod.snd)
    · intro v hv
      rw [List.map_cons] at hv
      rcases List.mem_cons.mp hv with rfl | hv
      · exact (le_listMax p.2 (ps.map Prod.snd)).1
      · exact (le_listMax p.2 (ps.map Prod.snd)).2 v hv

/-- Witness for C3 at the concrete input of 101 origin points. -/
theorem measure_room_bbox_witness :
    100 < (List.replicate 101 ((0:Rat), (0:Rat))).length ∧
    (∃ r minX minY maxX maxY,
      measure_room (List.replicate 101 ((0:Rat), (0:Rat))) = some r ∧
      r.bounds = (minX, minY, maxX, maxY) ∧
      minX ∈ (List.replicate 101 ((0:Rat), (0:Rat))).map Prod.fst ∧
      (∀ v ∈ (List.replicate 101 ((0:Rat), (0:Rat))).map Prod.fst, minX ≤ v) ∧
      maxX ∈ (List.replicate 101 ((0:Rat), (0:Rat))).map Prod.fst ∧
      (∀ v ∈ (List.replicate 101 ((0:Rat), (0:Rat))).map Prod.fst, v ≤ maxX) ∧
      minY ∈ (List.replicate 101 ((0:Rat), (0:Rat))).map Prod.snd ∧
      (∀ v ∈ (List.replicate 101 ((0:Rat), (0:Rat))).map Prod.snd, minY ≤ v) ∧
      maxY ∈ (List.replicate 101 ((0:Rat), (0:Rat))).map Prod.snd ∧
      (∀ v ∈ (List.replicate 101 ((0:Rat), (0:Rat))).map Prod.snd, v ≤ maxY) ∧
      r.width = maxX - minX ∧ r.height = maxY - minY ∧
      r.area = r.width * r.height / 1000000 ∧
      r.perimeter = 2 * (r.width + r.height) ∧
      r.center = ((maxX + minX) / 2, (maxY + minY) / 2) ∧
      r.point_count = (List.replicate 101 ((0:Rat), (0:Rat))).length) :=
  ⟨by decide, measure_room_bbox (List.replicate 101 ((0:Rat), (0:Rat))) (by decide)⟩

/-- The `maxlen` of `self.all_points` in `FullLidarMappingGUI.__init__`
(line 55: `deque(maxlen=150000)`). -/
def ALL_POINTS_MAXLEN : Nat := 150000

/-- The state touched by `FullLidarMappingGUI`'s scheduler: the rolling
point store, the merged-batch counter, the scanning flag, the mutable
distance filter and (model-level) the number of redraw/metric recomputes
performed (`update_visualization` runs that did reach the drawing code). -/
structure GuiState where
  all_points : List Point
  scan_count : Nat
  is_scanning : Bool
  filter_distance : Rat
  redraws : Nat
deriving Repr

/-- A message in `self.data_queue`: either a batch of points from
`scan_worker` or the `("error", msg)` tuple it enqueues on failure. -/
inductive QMsg where
  | data (points : List Point)
  | error (msg : String)

/-- Model of `update_visualization` (`FullLidarMappingGUI.py` lines 591-661): returns
early when the store is empty, or when the retroactive distance filter
(`points_array[:, 3] <= self.filter_distance`) leaves no points; otherwise
performs the redraw and statistics recompute, counted in `redraws`. -/
def update_visualization (s : GuiState) : GuiState :=
  if s.all_points = [] then s
  else if s.all_points.filter (fun p => decide (p.distance ≤ s.filter_distance)) = [] then s
  else { s with redraws := s.redraws + 1 }

/-- Model of `stop_scan` (lines 527-544): clears `is_scanning` and ends with one
forced `update_visualization`.  The driver stop and thread join are
external effects with no bearing on the modelled state. -/
def stop_scan (s : GuiState) : GuiState :=
  update_visualization { s with is_scanning := false }

/-- Handling of one drained message inside `process_queue` (lines 569-589):
an `("error", msg)` tuple shows the message box and calls `stop_scan`; a
data batch is extended into `all_points`, `scan_count` is incremented, and
`update_visualization` runs when `scan_count % 3 == 0`.  Note the loop does
not break after an error message. -/
def process_queue_step (s : GuiState) (m : QMsg) : GuiState :=
  match m with
  | .error _ => stop_scan s
  | .data points =>
    let s1 : GuiState :=
      { s with
        all_points := List.foldl (dequeAppend ALL_POINTS_MAXLEN) s.all_points points,
        scan_count := s.scan_count + 1 }
    if s1.scan_count % 3 = 0 then update_visualization s1 else s1

/-- One full drain of the queue: the `while True: ... get_nowait()` loop of
`process_queue`, which handles every currently queued message in order. -/
def process_queue (s : GuiState) (msgs : List QMsg) : GuiState :=
  msgs.foldl process_queue_step s

/-- The state right after `start_scan` (lines 506-525): scanning flag set,
scan counter reset, store cleared. -/
def start_scan_state (fd : Rat) : GuiState :=
  { all_points := [], scan_count := 0, is_scanning := true,
    filter_distance := fd, redraws := 0 }

/-- Scheduler invariant after `k` merged batches: counter and decimated
redraw count, plus the store facts needed to know the redraw guards pass. -/
def GuiInv (fd : Rat) (k : Nat) (s : GuiState) : Prop :=
  s.scan_count = k ∧ s.redraws = k / 3 ∧ s.filter_distance = fd ∧
  s.is_scanning = true ∧ s.all_points.length ≤ ALL_POINTS_MAXLEN ∧
  (∀ p ∈ s.all_points, p.distance ≤ fd) ∧ (0 < k → s.all_points ≠ [])

theorem update_visualization_full (s : GuiState)
    (hne : s.all_points ≠ [])
    (hd : ∀ p ∈ s.all_points, p.distance ≤ s.filter_distance) :
    update_visualization s = { s with redraws := s.redraws + 1 } := by
  unfold update_visualization
  rw [if_neg hne]
  have hf : s.all_points.filter
      (fun p => decide (p.distance ≤ s.filter_distance)) = s.all_points :=
    List.filter_eq_self.mpr fun p hp => decide_eq_true (hd p hp)
  rw [hf, if_neg hne]

theorem process_data_step (fd : Rat) (k : Nat) (s : GuiState) (b : List Point)
    (hInv : GuiInv fd k s) (hb : b ≠ []) (hbd : ∀ p ∈ b, p.distance ≤ fd) :
    GuiInv fd (k + 1) (process_queue_step s (QMsg.data b)) := by
  obtain ⟨hc, hr, hfd, hs, hlen, hmem, hne⟩ := hInv
  have hstore : List.foldl (dequeAppend ALL_POINTS_MAXLEN) s.all_points b =
      takeLast ALL_POINTS_MAXLEN (s.all_points ++ b) :=
    foldl_dequeAppend_eq ALL_POINTS_MAXLEN b s.all_points hlen
  have hlen' : (List.foldl (dequeAppend ALL_POINTS_MAXLEN) s.all_points b).length ≤
      ALL_POINTS_MAXLEN := by
    rw [hstore, length_takeLast]
    omega
  have hmem' : ∀ p ∈ List.foldl (dequeAppend ALL_POINTS_MAXLEN) s.all_points b,
      p.distance ≤ fd := by
    intro p hp
    rw [hstore] at hp
    have hp2 : p ∈ s.all_points ++ b := List.mem_of_mem_drop hp
    rcases List.mem_append.mp hp2 with h | h
    · exact hmem p h
    · exact hbd p h
  have hne' : List.foldl (dequeAppend ALL_POINTS_MAXLEN) s.all_points b ≠ [] := by
    apply List.ne_nil_of_length_pos
    rw [hstore, length_takeLast]
    have hb1 : 0 < b.length := List.length_pos.mpr hb
    have : ALL_POINTS_MAXLEN = 150000 := rfl
    simp only [List.length_append]
    omega
  have key : process_queue_step s (QMsg.data b) =
      if (s.scan_count + 1) % 3 = 0 then
        update_visualization
          { s with
            all_points := List.foldl (dequeAppend ALL_POINTS_MAXLEN) s.all_points b,
            scan_count := s.scan_count + 1 }
      else
        { s with
          all_points := List.foldl (dequeAppend ALL_POINTS_MAXLEN) s.all_points b,
          scan_count := s.scan_count + 1 } := rfl
  rw [key, hc]
  by_cases h3 : (k + 1) % 3 = 0
  · rw [if_pos h3]
    rw [update_visualization_full _ hne' (by simpa [hfd] using hmem')]
    refine ⟨rfl, ?_, hfd, hs, hlen', hmem', fun _ => hne'⟩
    show s.redraws + 1 = (k + 1) / 3
    rw [hr, Nat.succ_div, if_pos (Nat.dvd_of_mod_eq_zero h3)]
  · rw [if_neg h3]
    refine ⟨rfl, ?_, hfd, hs, hlen', hmem', fun _ => hne'⟩
    show s.redraws = (k + 1) / 3
    rw [hr, Nat.succ_div,
      if_neg (fun hdvd => h3 (Nat.dvd_iff_mod_eq_zero.mp hdvd))]
    omega

theorem process_data_run (fd : Rat) (bs : List (List Point)) :
    ∀ (k : Nat) (s : GuiState), GuiInv fd k s →
      (∀ b ∈ bs, b ≠ [] ∧ ∀ p ∈ b, p.distance ≤ fd) →
      GuiInv fd (k + bs.length) (process_queue s (bs.map QMsg.data)) := by
  induction bs with
  | nil =>
    intro k s hInv _
    simpa using hInv
  | cons b bs ih =>
    intro k s hInv hv
    have hb := hv b (List.mem_cons_self b bs)
    have hstep := process_data_step fd k s b hInv hb.1 hb.2
    have hrest := ih (k + 1) (process_queue_step s (QMsg.data b)) hstep
      (fun b2 h2 => hv b2 (List.mem_cons_of_mem b h2))
    simp only [List.map_cons, process_queue, List.foldl_cons, List.length_cons] at *
    rw [show k + (bs.length + 1) = k + 1 + bs.length from by omega]
    exact hrest

/-- Claim C5: with the source's decimation factor 3
(`if self.scan_count % 3 == 0` in `process_queue`), merging 9 data batches
from a fresh scanning state triggers the redraw/metric recompute exactly 3
times, and the forced final `update_visualization` in `stop_scan` makes it
4.  The batches are required to be nonempty (the producer only enqueues
nonempty batches) and to pass the distance filter in effect (they were
accepted under it), which is what makes each triggered recompute actually
reach the drawing code. -/
theorem decimated_recompute_count (fd : Rat) (bs : List (List Point))
    (h9 : bs.length = 9)
    (hv : ∀ b ∈ bs, b ≠ [] ∧ ∀ p ∈ b, p.distance ≤ fd) :
    (process_queue (start_scan_state fd) (bs.map QMsg.data)).redraws = 3 ∧
    (stop_scan (process_queue (start_scan_state fd) (bs.map QMsg.data))).redraws = 4 := by
  have hInv0 : GuiInv fd 0 (start_scan_state fd) := by
    refine ⟨rfl, rfl, rfl, rfl, ?_, ?_, ?_⟩ <;> simp [start_scan_state]
  have hfinal := process_data_run fd bs 0 (start_scan_state fd) hInv0 hv
  rw [h9] at hfinal
  obtain ⟨hc, hr, hfd, hs, hlen, hmem, hne⟩ := hfinal
  have hne9 : (process_queue (start_scan_state fd) (bs.map QMsg.data)).all_points ≠ [] :=
    hne (by omega)
  constructor
  · rw [hr]
  · unfold stop_scan
    rw [update_visualization_full _ (by simpa using hne9) (by simpa [hfd] using hmem)]
    simp only []
    rw [hr]

/-- A concrete accepted point used by the witnesses below. -/
def samplePoint : Point := ⟨0, 0, 1, 5⟩

/-- Witness for C5: nine singleton batches of an accepted point under
`filter_distance = 8000`. -/
theorem decimated_recompute_count_witness :
    (List.replicate 9 [samplePoint]).length = 9 ∧
    (∀ b ∈ List.replicate 9 [samplePoint], b ≠ [] ∧ ∀ p ∈ b, p.distance ≤ 8000) ∧
    ((process_queue (start_scan_state 8000)
        ((List.replicate 9 [samplePoint]).map QMsg.data)).redraws = 3 ∧
      (stop_scan (process_queue (start_scan_state 8000)
        ((List.replicate 9 [samplePoint]).map QMsg.data))).redraws = 4) :=
  ⟨by decide, by decide,
    decimated_recompute_count 8000 (List.replicate 9 [samplePoint])
      (by decide) (by decide)⟩

/-- The error description enqueued by `scan_worker` on an exception. -/
def faultMsg : String := "scan failure"

theorem update_visualization_is_scanning (s : GuiState) :
    (update_visualization s).is_scanning = s.is_scanning := by
  unfold update_visualization
  split
  · rfl
  · split <;> rfl

theorem process_queue_step_scanning_false (s : GuiState) (m : QMsg)
    (h : s.is_scanning = false) :
    (process_queue_step s m).is_scanning = false := by
  cases m with
  | error e =>
    show (stop_scan s).is_scanning = false
    unfold stop_scan
    rw [update_visualization_is_scanning]
  | data b =>
    have key : process_queue_step s (QMsg.data b) =
        if (s.scan_count + 1) % 3 = 0 then
          update_visualization
            { s with
              all_points := List.foldl (dequeAppend ALL_POINTS_MAXLEN) s.all_points b,
              scan_count := s.scan_count + 1 }
        else
          { s with
            all_points := List.foldl (dequeAppend ALL_POINTS_MAXLEN) s.all_points b,
            scan_count := s.scan_count + 1 } := rfl
    rw [key]
    split
    · rw [update_visualization_is_scanning]
      exact h
    · exact h

theorem process_queue_scanning_false (msgs : List QMsg) :
    ∀ s : GuiState, s.is_scanning = false →
      (process_queue s msgs).is_scanning = false := by
  induction msgs with
  | nil => intro s h; exact h
  | cons m ms ih =>
    intro s h
    exact ih (process_queue_step s m) (process_queue_step_scanning_false s m h)

/-- Claim C8, counterexample: a data batch queued behind a fault message IS
merged into the point store by the same drain.  Starting from a fresh
scanning state, draining `[error, data [p]]` leaves the store holding `p`:
the `while True` loop of `process_queue` continues past the error branch
(there is no `break`), so the batch behind the fault is still extended into
`all_points` after `stop_scan` ran. -/
theorem data_after_fault_merged :
    (process_queue (start_scan_state 8000)
      [QMsg.error faultMsg, QMsg.data [samplePoint]]).all_points = [samplePoint] := by
  rfl

/-- Claim C8, amended: on draining a fault message the scheduler calls
`stop_scan`, which clears `is_scanning` — so no further `process_queue`
tick is scheduled (`root.after` is guarded by `is_scanning`) — and performs
the forced final recompute; but the current drain does not halt: the
remaining queued messages, including data batches behind the fault, are
processed exactly as if draining them from the post-stop state. -/
theorem fault_stops_rescheduling_not_drain (s : GuiState) (e : String)
    (rest : List QMsg) :
    process_queue s (QMsg.error e :: rest) = process_queue (stop_scan s) rest ∧
    (process_queue s (QMsg.error e :: rest)).is_scanning = false := by
  refine ⟨rfl, ?_⟩
  show (process_queue (stop_scan s) rest).is_scanning = false
  apply process_queue_scanning_false
  unfold stop_scan
  rw [update_visualization_is_scanning]

/-- The per-frame point extraction of `LidarWorker.run` (`LidarViewer.py`
lines 380-386, Qt variant): accept a measurement when
`distance > 0 and quality > 0` and convert it to an `(x, y)` pair. -/
def workerPoints (cosD sinD : Rat → Rat) (scan : List Measurement) :
    List (Rat × Rat) :=
  (scan.filter (fun m => decide (0 < m.distance ∧ 0 < m.quality))).map
    (fun m => (m.distance * cosD m.angle, m.distance * sinD m.angle))

/-- The outcome of one `next(self.lidar.iter_scans(...))` call: either a
scan frame or an exception (`FrameFault`). -/
inductive FrameResult where
  | frame (scan : List Measurement)
  | fault

/-- The `max_consecutive_errors` constant in `LidarWorker.run` (line 373). -/
def MAX_CONSECUTIVE_ERRORS : Nat := 3

/-- The observable worker state of `LidarWorker.run`: the consecutive-error
counter, the number of frames handled, the batches emitted through
`data_ready`, and the error descriptions emitted through `error_signal`.
Inside the per-frame loop every exception is caught by the inner
`except Exception` clause, so `error_signal` is never emitted there; it
fires only on connect failure or on an exception escaping the loop, neither
of which a frame sequence can produce. -/
structure WorkerState where
  consecutive_errors : Nat
  processed : Nat
  emitted : List (List (Rat × Rat))
  errorSignals : List String
deriving Repr

/-- One iteration of the `while` body of `LidarWorker.run` (lines 376-401):
a frame whose accepted points are nonempty is emitted and resets the
counter; a frame with no accepted points increments the counter; an
exception increments the counter. -/
def workerStep (cosD sinD : Rat → Rat) (s : WorkerState) (f : FrameResult) :
    WorkerState :=
  match f with
  | .frame scan =>
    if workerPoints cosD sinD scan ≠ [] then
      { s with
        emitted := s.emitted ++ [workerPoints cosD sinD scan],
        consecutive_errors := 0,
        processed := s.processed + 1 }
    else
      { s with
        consecutive_errors := s.consecutive_errors + 1,
        processed := s.processed + 1 }
  | .fault =>
    { s with
      consecutive_errors := s.consecutive_errors + 1,
      processed := s.processed + 1 }

/-- The `while self.is_scanning and consecutive_errors <
max_consecutive_errors` loop, run over a sequence of frame outcomes
(`is_scanning` stays true unless an external `disconnect_lidar` flips it,
which is outside the frame stream). -/
def runWorkerFrom (cosD sinD : Rat → Rat) (s : WorkerState) :
    List FrameResult → WorkerState
  | [] => s
  | f :: fs =>
    if s.consecutive_errors < MAX_CONSECUTIVE_ERRORS then
      runWorkerFrom cosD sinD (workerStep cosD sinD s f) fs
    else
      s

/-- Model of `LidarWorker.run` from its initial state (`consecutive_errors = 0`). -/
def runWorker (cosD sinD : Rat → Rat) (frames : List FrameResult) :
    WorkerState :=
  runWorkerFrom cosD sinD ⟨0, 0, [], []⟩ frames

/-- Claim C6, counterexample: after 3 consecutive frame faults the worker
loop exits — but no error signal is emitted, so the lifecycle state never
transitions to Error (the GUI's error path runs only from `error_signal`);
the worker silently disconnects.  The claimed transition to `Error` does
not happen. -/
theorem three_faults_no_error_signal :
    (runWorker (fun a => a) (fun a => a)
      [FrameResult.fault, FrameResult.fault, FrameResult.fault]).errorSignals = [] ∧
    (runWorker (fun a => a) (fun a => a)
      [FrameResult.fault, FrameResult.fault, FrameResult.fault]).consecutive_errors = 3 ∧
    (runWorker (fun a => a) (fun a => a)
      [FrameResult.fault, FrameResult.fault, FrameResult.fault]).processed = 3 := by
  refine ⟨rfl, rfl, rfl⟩

/-- Claim C6, amended: after exactly `max_consecutive_errors = 3`
consecutive per-frame failures with no intervening success, scanning ceases
— the loop processes no further frame — and the worker disconnects, but no
error signal is emitted and no Error-state transition occurs; a single
successful frame (nonempty accepted points) resets the consecutive-error
counter to zero. -/
theorem consecutive_error_threshold (cosD sinD : Rat → Rat)
    (rest : List FrameResult) (scan : List Measurement) (s : WorkerState)
    (hgood : workerPoints cosD sinD scan ≠ []) :
    runWorker cosD sinD ([FrameResult.fault, FrameResult.fault, FrameResult.fault] ++ rest) =
      runWorker cosD sinD [FrameResult.fault, FrameResult.fault, FrameResult.fault] ∧
    (runWorker cosD sinD [FrameResult.fault, FrameResult.fault, FrameResult.fault]).errorSignals = [] ∧
    (runWorker cosD sinD [FrameResult.fault, FrameResult.fault, FrameResult.fault]).processed = 3 ∧
    (workerStep cosD sinD s (FrameResult.frame scan)).consecutive_errors = 0 := by
  refine ⟨?_, rfl, rfl, ?_⟩
  · show runWorkerFrom cosD sinD ⟨3, 3, [], []⟩ rest = ⟨3, 3, [], []⟩
    cases rest with
    | nil => rfl
    | cons f fs =>
      unfold runWorkerFrom
      rw [if_neg (by decide)]
  · have key : workerStep cosD sinD s (FrameResult.frame scan) =
        if workerPoints cosD sinD scan ≠ [] then
          { s with
            emitted := s.emitted ++ [workerPoints cosD sinD scan],
            consecutive_errors := 0,
            processed := s.processed + 1 }
        else
          { s with
            consecutive_errors := s.consecutive_errors + 1,
            processed := s.processed + 1 } := rfl
    rw [key, if_pos hgood]

/-- Witness for C6 (amended) at a concrete accepted scan. -/
theorem consecutive_error_threshold_witness :
    workerPoints (fun a => a) (fun a => a) [⟨1, 0, 5⟩] ≠ [] ∧
    (runWorker (fun a => a) (fun a => a)
        ([FrameResult.fault, FrameResult.fault, FrameResult.fault] ++ []) =
      runWorker (fun a => a) (fun a => a)
        [FrameResult.fault, FrameResult.fault, FrameResult.fault] ∧
    (runWorker (fun a => a) (fun a => a)
        [FrameResult.fault, FrameResult.fault, FrameResult.fault]).errorSignals = [] ∧
    (runWorker (fun a => a) (fun a => a)
        [FrameResult.fault, FrameResult.fault, FrameResult.fault]).processed = 3 ∧
    (workerStep (fun a => a) (fun a => a) ⟨0, 0, [], []⟩
        (FrameResult.frame [⟨1, 0, 5⟩])).consecutive_errors = 0) :=
  ⟨by decide,
    consecutive_error_threshold (fun a => a) (fun a => a) [] [⟨1, 0, 5⟩]
      ⟨0, 0, [], []⟩ (by decide)⟩

theorem runWorkerFrom_nil (cosD sinD : Rat → Rat) (s : WorkerState) :
    runWorkerFrom cosD sinD s [] = s := rfl

theorem runWorkerFrom_cons (cosD sinD : Rat → Rat) (s : WorkerState)
    (f : FrameResult) (fs : List FrameResult)
    (h : s.consecutive_errors < MAX_CONSECUTIVE_ERRORS) :
    runWorkerFrom cosD sinD s (f :: fs) =
      runWorkerFrom cosD sinD (workerStep cosD sinD s f) fs := by
  conv_lhs => unfold runWorkerFrom
  rw [if_pos h]

theorem runWorkerFrom_stopped (cosD sinD : Rat → Rat) (s : WorkerState)
    (fs : List FrameResult)
    (h : ¬ s.consecutive_errors < MAX_CONSECUTIVE_ERRORS) :
    runWorkerFrom cosD sinD s fs = s := by
  cases fs with
  | nil => rfl
  | cons f fs =>
    conv_lhs => unfold runWorkerFrom
    rw [if_neg h]

/-- Claim C10: in `LidarWorker.run`, a frame whose measurements are all
filtered out (no accepted point) takes the `else: consecutive_errors += 1`
branch — the very same state change as an exception during the frame read —
so a run of `max_consecutive_errors = 3` all-filtered frames terminates
scanning (no further frame is processed) even though no read error
occurred. -/
theorem filtered_frame_counts_as_error (cosD sinD : Rat → Rat)
    (scan : List Measurement) (rest : List FrameResult) (s : WorkerState)
    (hempty : workerPoints cosD sinD scan = []) :
    workerStep cosD sinD s (FrameResult.frame scan) = workerStep cosD sinD s FrameResult.fault ∧
    runWorker cosD sinD (List.replicate 3 (FrameResult.frame scan) ++ rest) =
      runWorker cosD sinD (List.replicate 3 (FrameResult.frame scan)) ∧
    (runWorker cosD sinD (List.replicate 3 (FrameResult.frame scan))).consecutive_errors = 3 ∧
    (runWorker cosD sinD (List.replicate 3 (FrameResult.frame scan))).errorSignals = [] := by
  have keystep : ∀ t : WorkerState,
      workerStep cosD sinD t (FrameResult.frame scan) =
        { t with
          consecutive_errors := t.consecutive_errors + 1,
          processed := t.processed + 1 } := by
    intro t
    have key : workerStep cosD sinD t (FrameResult.frame scan) =
        if workerPoints cosD sinD scan ≠ [] then
          { t with
            emitted := t.emitted ++ [workerPoints cosD sinD scan],
            consecutive_errors := 0,
            processed := t.processed + 1 }
        else
          { t with
            consecutive_errors := t.consecutive_errors + 1,
            processed := t.processed + 1 } := rfl
    rw [key, if_neg (by simp [hempty])]
  have hrun : runWorker cosD sinD (List.replicate 3 (FrameResult.frame scan)) =
      ⟨3, 3, [], []⟩ := by
    show runWorkerFrom cosD sinD ⟨0, 0, [], []⟩
      (FrameResult.frame scan :: FrameResult.frame scan ::
        FrameResult.frame scan :: []) = ⟨3, 3, [], []⟩
    rw [runWorkerFrom_cons cosD sinD _ _ _ (by decide), keystep]
    rw [runWorkerFrom_cons cosD sinD _ _ _ (by decide), keystep]
    rw [runWorkerFrom_cons cosD sinD _ _ _ (by decide), keystep]
    rw [runWorkerFrom_nil]
  have hrun2 : runWorker cosD sinD (List.replicate 3 (FrameResult.frame scan) ++ rest) =
      runWorkerFrom cosD sinD ⟨3, 3, [], []⟩ rest := by
    show runWorkerFrom cosD sinD ⟨0, 0, [], []⟩
      (FrameResult.frame scan :: FrameResult.frame scan ::
        FrameResult.frame scan :: rest) = runWorkerFrom cosD sinD ⟨3, 3, [], []⟩ rest
    rw [runWorkerFrom_cons cosD sinD _ _ _ (by decide), keystep]
    rw [runWorkerFrom_cons cosD sinD _ _ _ (by decide), keystep]
    rw [runWorkerFrom_cons cosD sinD _ _ _ (by decide), keystep]
  refine ⟨keystep s, ?_, by rw [hrun], by rw [hrun]⟩
  rw [hrun2, hrun, runWorkerFrom_stopped cosD sinD _ _ (by decide)]

/-- Witness for C10 at a concrete all-filtered scan (distance 0). -/
theorem filtered_frame_counts_as_error_witness :
    workerPoints (fun a => a) (fun a => a) [⟨0, 0, 0⟩] = [] ∧
    (workerStep (fun a => a) (fun a => a) ⟨0, 0, [], []⟩
        (FrameResult.frame [⟨0, 0, 0⟩]) =
      workerStep (fun a => a) (fun a => a) ⟨0, 0, [], []⟩ FrameResult.fault ∧
    runWorker (fun a => a) (fun a => a)
        (List.replicate 3 (FrameResult.frame [⟨0, 0, 0⟩]) ++ [FrameResult.fault]) =
      runWorker (fun a => a) (fun a => a)
        (List.replicate 3 (FrameResult.frame [⟨0, 0, 0⟩])) ∧
    (runWorker (fun a => a) (fun a => a)
        (List.replicate 3 (FrameResult.frame [⟨0, 0, 0⟩]))).consecutive_errors = 3 ∧
    (runWorker (fun a => a) (fun a => a)
        (List.replicate 3 (FrameResult.frame [⟨0, 0, 0⟩]))).errorSignals = []) :=
  ⟨by decide,
    filtered_frame_counts_as_error (fun a => a) (fun a => a) [⟨0, 0, 0⟩]
      [FrameResult.fault] ⟨0, 0, [], []⟩ (by decide)⟩

/-- The structured (JSON) export object written by
`FullLidarMappingGUI.export_data` (lines 709-719). -/
structure ExportJson where
  points : List Point
  scan_count : Nat
  timestamp : String
  total_points : Nat
  filter_distance : Rat
deriving Repr

/-- Model of `export_data`, JSON branch: serializes the current store in order
together with the scan counter, a timestamp, the total count and the
filter distance in effect. -/
def export_data (store : List Point) (sc : Nat) (ts : String) (fd : Rat) :
    ExportJson :=
  { points := store, scan_count := sc, timestamp := ts,
    total_points := store.length, filter_distance := fd }

/-- One CSV data row as consumed by `load_data`'s CSV branch: either it
parses into a point (`float(row[0]) ... float(row[3])` all succeed) or one
of the conversions raises. -/
inductive CsvRow where
  | ok (p : Point)
  | bad

/-- The CSV parsing loop of `load_data` (lines 752-757): the points list is
built row by row before the store is touched; the first bad row raises and
aborts the whole import. -/
def parseCsvRows (rows : List CsvRow) : Option (List Point) :=
  rows.mapM (fun r =>
    match r with
    | .ok p => some p
    | .bad => none)

/-- An element of `self.all_points` after an unvalidated import: `deque`'s
`extend` accepts any Python value, so besides genuine point records the
store can end up holding other objects let in by `extend(points)` — a
character of a string value, a dict key, a malformed record.  Live
acquisition and export only ever produce `point`s; `junk` stands for any
non-record value, distinguished by an opaque tag. -/
inductive StoreElem where
  | point (p : Point)
  | junk (j : Nat)
deriving DecidableEq, Repr

/-- The value found at `data['points']` in a parsed JSON file:
* `arr ps` — a list of valid point records;
* `junkIterable elems` — an iterable value that is not a list of valid
  point records: a string (its characters), a dict (its keys), or a list
  containing malformed records.  `extend` pushes its elements `elems` into
  the cleared store without complaint; when `elems` is nonempty, the
  subsequent `update_visualization()` call raises on
  `np.array(...)[:, 3]`, which is what surfaces the fault.  An empty such
  iterable behaves like the empty list `arr []`;
* `notAList` — a non-iterable value (e.g. a number), on which
  `all_points.extend(points)` itself raises `TypeError` — crucially, after
  `all_points.clear()` has already run. -/
inductive JsonPoints where
  | arr (ps : List Point)
  | junkIterable (elems : List StoreElem)
  | notAList

/-- The cases an input file can present to `load_data` (lines 732-777). -/
inductive LoadInput where
  | jsonMalformed
  | jsonNoPoints
  | jsonPoints (v : JsonPoints)
  | csv (rows : List CsvRow)
  | otherExt

/-- Model of `FullLidarMappingGUI.load_data`: returns the resulting store
contents together with a flag recording whether the `except` clause
surfaced an error dialog.  Parse failures (`json.load`, `data['points']`,
a bad CSV row) raise before any mutation, leaving the store unchanged.  On
the success paths `all_points.clear(); all_points.extend(points)` replaces
the store (respecting the deque maxlen).  When the JSON `points` value is
a non-list iterable, `extend` succeeds on the cleared store, so its junk
elements are in the store when the later redraw raises.  When it is not
iterable, and when the filename has an unrecognized extension (`points`
never bound, `NameError` at the `extend` argument), the failure is raised
right after `clear()` — the store ends up empty. -/
def load_data (store : List Point) (inp : LoadInput) : List StoreElem × Bool :=
  match inp with
  | .jsonMalformed => (store.map StoreElem.point, true)
  | .jsonNoPoints => (store.map StoreElem.point, true)
  | .jsonPoints (.arr ps) =>
    (List.foldl (dequeAppend ALL_POINTS_MAXLEN) [] (ps.map StoreElem.point), false)
  | .jsonPoints (.junkIterable elems) =>
    (List.foldl (dequeAppend ALL_POINTS_MAXLEN) [] elems, !elems.isEmpty)
  | .jsonPoints .notAList => ([], true)
  | .csv rows =>
    match parseCsvRows rows with
    | some ps =>
      (List.foldl (dequeAppend ALL_POINTS_MAXLEN) [] (ps.map StoreElem.point), false)
    | none => (store.map StoreElem.point, true)
  | .otherExt => ([], true)

/-- A sample timestamp for the witnesses. -/
def sampleTs : String := "2024-01-01T00:00:00"

/-- Claim C7: exporting a store of `N` points (within capacity) to the
structured format and importing the result reconstructs exactly the same
`N` points in the same order, whatever store the importer starts from and
whatever the timestamp was (only the `points` field is consulted). -/
theorem export_import_roundtrip (store prior : List Point) (sc : Nat)
    (ts : String) (fd : Rat) (h : store.length ≤ ALL_POINTS_MAXLEN) :
    load_data prior (LoadInput.jsonPoints (JsonPoints.arr
      (export_data store sc ts fd).points)) = (store.map StoreElem.point, false) := by
  show (List.foldl (dequeAppend ALL_POINTS_MAXLEN) [] (store.map StoreElem.point), false) =
    (store.map StoreElem.point, false)
  rw [foldl_dequeAppend_eq ALL_POINTS_MAXLEN (store.map StoreElem.point) [] (by simp),
    List.nil_append,
    takeLast_of_length_le (by rw [List.length_map]; exact h)]

/-- Witness for C7 at a concrete one-point store. -/
theorem export_import_roundtrip_witness :
    [samplePoint].length ≤ ALL_POINTS_MAXLEN ∧
    load_data [] (LoadInput.jsonPoints (JsonPoints.arr
      (export_data [samplePoint] 0 sampleTs 8000).points)) =
      ([samplePoint].map StoreElem.point, false) :=
  ⟨by decide, export_import_roundtrip [samplePoint] [] 0 sampleTs 8000 (by decide)⟩

